import Mathlib

/-!
Shallow embedding of the `authorization` package of jucrouzet/grpcutils
(file `pkg/authorization/authorization.go`) together with theorems checking
the natural-language specification against it.

Modelling conventions:
* Go `error` values are modelled by `GoError`: `errors.New` gives a
  `sentinel`, and `fmt.Errorf("%w...", e, ...)` gives `wrapf e suffix`
  where `suffix` is the formatted text after the wrapped error's message.
  `errors.Is` is `GoError.errorsIs`, walking the unwrap chain.
* gRPC metadata (`metadata.MD`) is an association list from keys to lists
  of values; `mdGet`/`mdSet` model map indexing and `MD.Set`.
* `context.Context` is modelled by the fields this package touches:
  incoming metadata, outgoing metadata, and the value stored under the
  private `contextValueKey` (`authValue`; `none` means the key was never
  attached).  `ctx.Value(contextValueKey)` returns Go `nil` both when the
  key is absent and when `nil` was stored, which `contextValue` reflects
  by mapping both to `GoAny.nilAny`.
* The character classes of `unicode.IsLetter`/`unicode.IsDigit` and
  `strings.ToLower` are modelled on the ASCII plane (the claims under
  check only exercise ASCII scheme names).
* Go's regexp `(?m)^([^\s]+)\s+(.*)` (RE2, leftmost match, greedy
  quantifiers, `.` not matching a newline, `^` matching at the start and
  after every newline because of `(?m)`) is modelled by `scanAnchors`.
-/

/-- Decidable equality for `Except`, used to evaluate the embedding on
concrete inputs. -/
instance exceptDecEq {ε α : Type} [DecidableEq ε] [DecidableEq α] :
    DecidableEq (Except ε α) := fun x y =>
  match x, y with
  | .error a, .error b =>
    if h : a = b then .isTrue (by rw [h]) else .isFalse (by simp [h])
  | .ok a, .ok b =>
    if h : a = b then .isTrue (by rw [h]) else .isFalse (by simp [h])
  | .error _, .ok _ => .isFalse (by simp)
  | .ok _, .error _ => .isFalse (by simp)

/-- Go error values: a sentinel created by `errors.New`, or a wrap created
by `fmt.Errorf` with a single `%w` verb followed by further text. -/
inductive GoError where
  | sentinel (msg : String)
  | wrapf (inner : GoError) (suffix : String)
  deriving DecidableEq, Repr

/-- Message of a Go error (`err.Error()`): a wrap formats the wrapped
message followed by the extra text. -/
def GoError.errMsg : GoError → String
  | .sentinel m => m
  | .wrapf inner suffix => inner.errMsg ++ suffix

/-- `errors.Is(e, target)`: `e` equals `target` or some error in `e`'s
unwrap chain does. -/
def GoError.errorsIs (e target : GoError) : Bool :=
  match e with
  | .sentinel m => GoError.sentinel m == target
  | .wrapf inner suffix => GoError.wrapf inner suffix == target || inner.errorsIs target

/-- `ErrInvalidOptionValue` is returned when using an invalid option value. -/
def ErrInvalidOptionValue : GoError := .sentinel "invalid option value"

/-- `ErrUnchecked` is returned when no Authorization interceptor are in use. -/
def ErrUnchecked : GoError := .sentinel "authorization metadata is unchecked"

/-- `ErrMissing` is returned when request was made without authorization metadata. -/
def ErrMissing : GoError := .sentinel "request has no authorization credentials"

/-- `ErrInvalid` is returned when request was made with an invalid authorization metadata. -/
def ErrInvalid : GoError := .sentinel "authorization credentials are invalid"

/-- `ErrType` is returned when trying to get authorization result as the wrong type. -/
def ErrType : GoError := .sentinel "authorization has the wrong type"

/-- `ErrInvalidMethod` is returned when trying to use an invalid authorization method. -/
def ErrInvalidMethod : GoError := .sentinel "invalid authorization method"

/-- Character class of the regexp escape `\s` in Go's regexp package:
`[\t\n\f\r ]`. -/
def isRegexSpace (c : Char) : Bool :=
  c = ' ' || c = '\t' || c = '\n' || c = '\u000C' || c = '\r'

/-- Combined `unicode.IsLetter(r) || unicode.IsDigit(r)` check used by
`validateMethod`, modelled on the ASCII plane. -/
def isAlphanumeric (c : Char) : Bool :=
  c.isAlpha || c.isDigit

/-- Model of `strings.ToLower` (ASCII plane). -/
def goToLower (s : String) : String :=
  String.mk (s.data.map Char.toLower)

/-- Model of `validateMethod`: a method name must be non-empty, contain no
space, equal its own lowercasing, and consist of letters and digits only;
each violation is reported by wrapping `ErrInvalidMethod`. -/
def validateMethod (method : String) : Option GoError :=
  if method = "" then
    some (.wrapf ErrInvalidMethod ": is empty")
  else if method.data.contains ' ' then
    some (.wrapf ErrInvalidMethod ": must not contains whitespace")
  else if method ≠ goToLower method then
    some (.wrapf ErrInvalidMethod ": must be lowercase")
  else if method.data.all isAlphanumeric then
    none
  else
    some (.wrapf ErrInvalidMethod ": must only contains alphanumeric characters")

/-- gRPC metadata: map from header names to lists of values, modelled as an
association list. -/
abbrev MD := List (String × List String)

/-- Map indexing `md[key]`: the value list, `[]` when the key is absent. -/
def mdGet (md : MD) (key : String) : List String :=
  match md.find? (fun p => p.1 == key) with
  | some p => p.2
  | none => []

/-- `metadata.MD.Set(key, vals...)`: replaces any existing entry for the key. -/
def mdSet (md : MD) (key : String) (vals : List String) : MD :=
  md.filter (fun p => p.1 != key) ++ [(key, vals)]

/-- MetadataName is the name of the metadata that holds the authorization
credential. -/
def MetadataName : String := "authorization"

/-- Go `any` values that this package stores in a context: the untyped
`nil`, an `error`, or any other value, represented by its runtime type name
and an opaque payload. -/
inductive GoAny where
  | nilAny
  | errVal (e : GoError)
  | typedVal (ty : String) (payload : String)
  deriving DecidableEq, Repr

/-- The fields of a `context.Context` that the authorization package reads
or writes. `authValue = none` means nothing was ever attached under
`contextValueKey`. -/
structure Context where
  incomingMD : Option MD
  outgoingMD : Option MD
  authValue : Option GoAny
  deriving DecidableEq, Repr

/-- `ctx.Value(contextValueKey)`: Go returns the untyped `nil` when the key
was never attached. -/
def contextValue (ctx : Context) : GoAny :=
  match ctx.authValue with
  | none => .nilAny
  | some v => v

/-- `context.WithValue(ctx, contextValueKey, v)`. -/
def withAuthValue (ctx : Context) (v : GoAny) : Context :=
  { ctx with authValue := some v }

/-- CredentialValidator is the function type for functions that validates
credentials; it receives the call context and the credential and returns a
value and an error. -/
abbrev CredentialValidator := Context → String → GoAny × Option GoError

/-- Authorization handles authorization of methods via metadata; `methods`
models the Go map `map[string]CredentialValidator` (an entry holding `none`
models a nil function value). -/
structure Authorization where
  methods : List (String × Option CredentialValidator)

/-- Insertion `a.methods[method] = fn` into the methods map: later
registrations for the same name overwrite earlier ones. -/
def mapInsert (m : List (String × Option CredentialValidator)) (k : String)
    (v : Option CredentialValidator) : List (String × Option CredentialValidator) :=
  m.filter (fun p => p.1 != k) ++ [(k, v)]

/-- Two-valued map lookup `fn, ok := a.methods[k]`: `none` models `ok =
false`. -/
def mapLookup (m : List (String × Option CredentialValidator)) (k : String) :
    Option (Option CredentialValidator) :=
  (m.find? (fun p => p.1 == k)).map (fun p => p.2)

/-- Options is the Authorization option functions type (an option either
rewrites the instance or fails). -/
abbrev Options := Authorization → Except GoError Authorization

/-- Model of `WithMethodFunction`: rejects a nil function, validates the
method name, and stores the validator under the name. -/
def WithMethodFunction (method : String) (fn : Option CredentialValidator) : Options :=
  fun a =>
    match fn with
    | none => .error (.sentinel "cannot use a nil function")
    | some f =>
      match validateMethod method with
      | some e => .error e
      | none => .ok { methods := mapInsert a.methods method (some f) }

/-- Model of `New`: applies the options in order; the first option error
aborts construction, wrapped as `fmt.Errorf("%w : %s", ErrInvalidOptionValue,
err.Error())` (note: `%s`, so the original error leaves the unwrap chain). -/
def New (opts : List Options) : Except GoError Authorization :=
  opts.foldl
    (fun acc opt =>
      match acc with
      | .error e => .error e
      | .ok a =>
        match opt a with
        | .error e => .error (.wrapf ErrInvalidOptionValue (" : " ++ e.errMsg))
        | .ok a2 => .ok a2)
    (.ok { methods := [] })

/-- One attempt of `([^\s]+)\s+(.*)` at an anchor position: a maximal
non-empty run of non-whitespace, then a maximal non-empty run of
whitespace, then everything up to the next newline (`.` does not match a
newline). -/
def matchFrom (l : List Char) : Option (String × String) :=
  let tok := l.takeWhile (fun c => !isRegexSpace c)
  if tok.isEmpty then none
  else
    let rest := l.drop tok.length
    let sep := rest.takeWhile isRegexSpace
    if sep.isEmpty then none
    else
      let tl := rest.drop sep.length
      some (String.mk tok, String.mk (tl.takeWhile (fun c => c != '\n')))

/-- Fuelled scan over the `(?m)` anchor positions (start of text, then
after each newline), returning the leftmost match of
`(?m)^([^\s]+)\s+(.*)`.  Each step consumes at least one character, so
`length + 1` fuel (see `scanAnchors`) never runs out. -/
def scanAnchorsFuel : Nat → List Char → Option (String × String)
  | 0, _ => none
  | fuel + 1, l =>
    match matchFrom l with
    | some r => some r
    | none =>
      match l.dropWhile (fun c => c != '\n') with
      | [] => none
      | _ :: rest => scanAnchorsFuel fuel rest

/-- Model of `authorizationMetaRegex.FindStringSubmatch`, returning the two
capture groups when the value matches. -/
def scanAnchors (l : List Char) : Option (String × String) :=
  scanAnchorsFuel (l.length + 1) l

/-- The `MalformedHeader` classification produced by `parseMeta` when the
regexp does not match. -/
def malformedErr : GoError :=
  .wrapf ErrInvalid ": invalid format for authorization metadata"

/-- The `UnsupportedScheme` classification produced by `parseMeta` when no
validator is registered for the decoded scheme. -/
def unsupportedErr (scheme : String) : GoError :=
  .wrapf ErrInvalid (": authorization method \"" ++ scheme ++ "\" is not supported")

/-- The Metadata Codec decode stage of `parseMeta` (regexp match followed
by scheme-name validation of the first capture group). -/
def decodeWire (v : String) : Except GoError (String × String) :=
  match scanAnchors v.data with
  | none => .error malformedErr
  | some (scheme, credential) =>
    match validateMethod scheme with
    | some e => .error e
    | none => .ok (scheme, credential)

/-- Continuation of `parseMeta` on the first metadata value: decode, look
the scheme up, invoke the validator with the call context, and return
either its error or its value. -/
def parseHeaderValue (a : Authorization) (ctx : Context) (v : String) : GoAny :=
  match decodeWire v with
  | .error e => .errVal e
  | .ok (scheme, credential) =>
    match mapLookup a.methods scheme with
    | some (some fn) =>
      match fn ctx credential with
      | (_, some e) => .errVal e
      | (v2, none) => v2
    | _ => .errVal (unsupportedErr scheme)

/-- Model of `Authorization.parseMeta`: `ErrMissing` when the incoming
metadata is absent or the authorization key has no value, otherwise the
first value is parsed. -/
def parseMeta (a : Authorization) (ctx : Context) : GoAny :=
  match ctx.incomingMD with
  | none => .errVal ErrMissing
  | some md =>
    match mdGet md MetadataName with
    | [] => .errVal ErrMissing
    | v :: _ => parseHeaderValue a ctx v

/-- The wire string built by `AppendToOutgoingContext`:
`fmt.Sprintf("%s %s", strings.ToLower(method), credential)`. -/
def encodeWire (method credential : String) : String :=
  goToLower method ++ " " ++ credential

/-- Model of `AppendToOutgoingContext`: validates the method name, then
replaces the authorization entry of the outgoing metadata with the single
encoded value. -/
def AppendToOutgoingContext (ctx : Context) (method credential : String) :
    Except GoError Context :=
  match validateMethod method with
  | some e => .error e
  | none =>
    let md := match ctx.outgoingMD with
      | some m => m
      | none => []
    .ok { ctx with outgoingMD := some (mdSet md MetadataName [encodeWire method credential]) }

/-- The destination argument of `GetFromContext`: a non-pointer value of
some type, a typed nil pointer `(*T)(nil)`, or a pointer to a slot of
element type `elemTy` currently holding `contents`. -/
inductive Dest where
  | nonPtr (ty : String)
  | nilPtr (elemTy : String)
  | ref (elemTy : String) (contents : GoAny)
  deriving DecidableEq, Repr

/-- Result of `GetFromContext`: a returned error (or `none`) together with
the state of the destination after the call, or a runtime panic. -/
inductive GetResult where
  | ret (e : Option GoError) (dest : Dest)
  | panicked (msg : String)
  deriving DecidableEq, Repr

/-- Model of `GetFromContext`, mirroring the reflect-based code: a
non-pointer destination gives `ErrType`; an absent (or nil) context value
gives `ErrUnchecked`; a stored error is returned directly when it carries
`ErrMissing` or `ErrInvalid` and is wrapped into `ErrInvalid` otherwise; a
stored success value is copied when the destination element type matches
(assignability between identical types) and reported as `ErrType` naming
both types otherwise.  On a typed nil pointer destination,
`ddest.Elem().Type()` is `reflect.Value.Type` on the zero `Value`, which
panics before any error can be returned. -/
def GetFromContext (ctx : Context) (dest : Dest) : GetResult :=
  match dest with
  | .nonPtr ty => .ret (some (.wrapf ErrType ": dest must be a pointer")) (.nonPtr ty)
  | .nilPtr elemTy =>
    match contextValue ctx with
    | .nilAny => .ret (some ErrUnchecked) (.nilPtr elemTy)
    | .errVal e =>
      if e.errorsIs ErrMissing || e.errorsIs ErrInvalid then
        .ret (some e) (.nilPtr elemTy)
      else
        .ret (some (.wrapf ErrInvalid (": " ++ e.errMsg))) (.nilPtr elemTy)
    | .typedVal _ _ => .panicked "reflect: call of reflect.Value.Type on zero Value"
  | .ref elemTy contents =>
    match contextValue ctx with
    | .nilAny => .ret (some ErrUnchecked) (.ref elemTy contents)
    | .errVal e =>
      if e.errorsIs ErrMissing || e.errorsIs ErrInvalid then
        .ret (some e) (.ref elemTy contents)
      else
        .ret (some (.wrapf ErrInvalid (": " ++ e.errMsg))) (.ref elemTy contents)
    | .typedVal ty payload =>
      if elemTy = ty then
        .ret none (.ref elemTy (.typedVal ty payload))
      else
        .ret (some (.wrapf ErrType (": expecting a " ++ elemTy ++ " but got value is a " ++ ty)))
          (.ref elemTy contents)

/-- Model of the unary interceptor returned by
`Authorization.UnaryInterceptor`: it attaches the `parseMeta` outcome to
the call context and hands over to the wrapped handler, returning the
handler's response and error unchanged. -/
def unaryInterceptor {Req Resp : Type} (a : Authorization) (ctx : Context) (req : Req)
    (handler : Context → Req → Resp × Option GoError) : Resp × Option GoError :=
  handler (withAuthValue ctx (parseMeta a ctx)) req

/-- Model of `utils.ServerStream`: a wrapped stream whose `Context()`
returns the stored context. -/
structure ServerStream where
  ctx : Context
  deriving DecidableEq, Repr

/-- Model of the stream interceptor returned by
`Authorization.StreamInterceptor`: it wraps the stream in a
`utils.ServerStream` whose context carries the `parseMeta` outcome and
hands over to the wrapped handler, returning the handler's error
unchanged. -/
def streamInterceptor {Srv : Type} (a : Authorization) (srv : Srv) (stream : ServerStream)
    (handler : Srv → ServerStream → Option GoError) : Option GoError :=
  handler srv { ctx := withAuthValue stream.ctx (parseMeta a stream.ctx) }

/-- Convenience: an empty context (no metadata, nothing attached). -/
def ctxEmpty : Context :=
  { incomingMD := none, outgoingMD := none, authValue := none }

/-- Convenience: a validator that accepts every credential with a string
result. -/
def okValidator : CredentialValidator :=
  fun _ _ => (GoAny.typedVal "string" "ok", none)

/-- Convenience: a validator that accepts every credential but returns the
untyped nil as its value. -/
def nilValidator : CredentialValidator :=
  fun _ _ => (GoAny.nilAny, none)

/-- Error component of a `GetFromContext` result (`none` on success or
panic). -/
def returnedErr (r : GetResult) : Option GoError :=
  match r with
  | .ret e _ => e
  | .panicked _ => none

/-- Whether a destination is a pointer (`reflect.ValueOf(dest).Kind() ==
reflect.Ptr`). -/
def isPtrDest (d : Dest) : Bool :=
  match d with
  | .nonPtr _ => false
  | .nilPtr _ => true
  | .ref _ _ => true

/-- Whether a construction/append result is an error whose unwrap chain
carries the target. -/
def exceptErrorIs {α : Type} (r : Except GoError α) (target : GoError) : Bool :=
  match r with
  | .error e => e.errorsIs target
  | .ok _ => false

/-- The value list under the authorization key of a returned context's
outgoing metadata (empty on error). -/
def outVals (r : Except GoError Context) : List String :=
  match r with
  | .error _ => []
  | .ok ctx =>
    mdGet (match ctx.outgoingMD with
      | some md => md
      | none => []) MetadataName

/-- The context produced by a successful `AppendToOutgoingContext`, with a
fallback for the error case. -/
def okCtx (r : Except GoError Context) (fallback : Context) : Context :=
  match r with
  | .ok c => c
  | .error _ => fallback

/-- An error is in its own unwrap chain. -/
theorem errorsIs_self (e : GoError) : e.errorsIs e = true := by
  cases e <;> simp [GoError.errorsIs]

/-- Wrapping preserves membership in the unwrap chain. -/
theorem errorsIs_wrapf (i : GoError) (suf : String) (t : GoError) (h : i.errorsIs t = true) :
    (GoError.wrapf i suf).errorsIs t = true := by
  simp [GoError.errorsIs, h]

/-- A wrap of `ErrInvalidOptionValue` does not carry `ErrInvalidMethod`,
whatever the formatted text: `fmt.Errorf("%w : %s", ...)` keeps only
`ErrInvalidOptionValue` in the unwrap chain. -/
theorem wrapf_invalidOption_not_invalidMethod (suf : String) :
    (GoError.wrapf ErrInvalidOptionValue suf).errorsIs ErrInvalidMethod = false := by
  simp [GoError.errorsIs, ErrInvalidOptionValue, ErrInvalidMethod]

/-- A wrap of `ErrInvalid` carries `ErrInvalid` but not `ErrMissing`. -/
theorem wrapf_invalid_chain (suf : String) :
    (GoError.wrapf ErrInvalid suf).errorsIs ErrInvalid = true ∧
      (GoError.wrapf ErrInvalid suf).errorsIs ErrMissing = false := by
  constructor <;> simp [GoError.errorsIs, ErrInvalid, ErrMissing]

/-- Characters accepted by the scheme-name rule are not regexp whitespace. -/
theorem alnum_not_space (c : Char) (h : isAlphanumeric c = true) : isRegexSpace c = false := by
  by_contra hc
  rw [Bool.not_eq_false] at hc
  unfold isRegexSpace at hc
  simp only [Bool.or_eq_true, decide_eq_true_eq] at hc
  unfold isAlphanumeric at h
  rcases hc with ((((rfl | rfl) | rfl) | rfl) | rfl) <;> exact absurd h (by decide)

/-- Unpacking of a successful `validateMethod` check: the name is
non-empty, already lowercase, and alphanumeric throughout. -/
theorem validateMethod_none (m : String) (h : validateMethod m = none) :
    m ≠ "" ∧ m = goToLower m ∧ m.data.all isAlphanumeric = true := by
  unfold validateMethod at h
  split_ifs at h with h1 h2 h3 h4
  · exact ⟨h1, not_ne_iff.mp h3, h4⟩

/-- Every `validateMethod` failure is a wrap of `ErrInvalidMethod`. -/
theorem validateMethod_some_invalidMethod (m : String) (e : GoError)
    (h : validateMethod m = some e) : e.errorsIs ErrInvalidMethod = true := by
  unfold validateMethod at h
  split_ifs at h <;>
    (injection h with h2; subst h2; exact errorsIs_wrapf _ _ _ (errorsIs_self _))

/-- A `validateMethod` failure is never the malformed-header error. -/
theorem validateMethod_some_ne_malformed (m : String) (e : GoError)
    (h : validateMethod m = some e) : e ≠ malformedErr := by
  unfold validateMethod at h
  split_ifs at h <;>
    (injection h with h2; subst h2; simp [malformedErr, ErrInvalid, ErrInvalidMethod])

/-- Taking while `p` holds across an append whose left part satisfies `p`
everywhere and whose right part starts with a failure of `p` yields the
left part. -/
theorem takeWhile_append_stop (p : Char → Bool) (l1 l2 : List Char)
    (h1 : l1.all p = true) (h2 : l2.head?.all (fun c => !p c) = true) :
    (l1 ++ l2).takeWhile p = l1 := by
  induction l1 with
  | nil =>
    cases l2 with
    | nil => rfl
    | cons c t =>
      simp only [Option.all_some, List.head?_cons, Bool.not_eq_true'] at h2
      simp [List.takeWhile_cons, h2]
  | cons c t ih =>
    simp only [List.all_cons, Bool.and_eq_true] at h1
    simp [List.takeWhile_cons, h1.1, ih h1.2]

/-- The first metadata value for a key just set is the value list given to
`mdSet`. -/
theorem mdGet_mdSet (md : MD) (k : String) (vs : List String) :
    mdGet (mdSet md k vs) k = vs := by
  unfold mdGet mdSet
  induction md with
  | nil => simp
  | cons hd tl ih =>
    by_cases hk : hd.1 = k
    · simpa [hk] using ih
    · simpa [List.filter_cons, hk, List.find?] using ih

/-- A non-empty string has a non-empty character list. -/
theorem data_ne_nil_of_ne_empty (m : String) (h : m ≠ "") : m.data ≠ [] := by
  intro hd
  apply h
  have hm : m = String.mk m.data := rfl
  rw [hm, hd]

/-- Character-level form of the encoded wire string for an
already-lowercase scheme name. -/
theorem encodeWire_data (s c : String) (hlow : s = goToLower s) :
    (encodeWire s c).data = s.data ++ (' ' :: c.data) := by
  unfold encodeWire
  rw [← hlow, String.data_append, String.data_append, List.append_assoc]
  rfl

/-- The regexp matches the encoded wire string at its first anchor when the
scheme is non-empty non-whitespace, the credential contains no newline, and
the credential does not start with whitespace; the captures are untouched. -/
theorem matchFrom_encoded (s c : String)
    (hne : s.data ≠ [])
    (hsp : s.data.all (fun ch => !isRegexSpace ch) = true)
    (hnl : c.data.all (fun ch => ch != '\n') = true)
    (hhead : c.data.head?.all (fun ch => !isRegexSpace ch) = true) :
    matchFrom (s.data ++ (' ' :: c.data)) = some (s, c) := by
  have htok : (s.data ++ (' ' :: c.data)).takeWhile (fun ch => !isRegexSpace ch) = s.data := by
    apply takeWhile_append_stop _ _ _ hsp
    simp [isRegexSpace]
  have hdrop : (s.data ++ (' ' :: c.data)).drop s.data.length = ' ' :: c.data :=
    List.drop_left s.data (' ' :: c.data)
  have hsep : (' ' :: c.data).takeWhile isRegexSpace = [' '] := by
    have h1 : ([' '] ++ c.data).takeWhile isRegexSpace = [' '] := by
      apply takeWhile_append_stop _ _ _ (by decide)
      exact hhead
    simpa using h1
  have htail : c.data.takeWhile (fun ch => ch != '\n') = c.data := by
    apply List.takeWhile_eq_self_iff.mpr
    exact fun a ha => List.all_eq_true.mp hnl a ha
  unfold matchFrom
  simp only [htok, hdrop, hsep, List.isEmpty_eq_true, hne, if_false, List.length_cons,
    List.length_nil]
  simp only [List.drop_succ_cons, List.drop_zero, htail]
  simp [hne]

/-- The leftmost multiline-anchored match on the encoded wire string is the
match at the start. -/
theorem scanAnchors_of_matchFrom (l : List Char) (r : String × String)
    (h : matchFrom l = some r) : scanAnchors l = some r := by
  unfold scanAnchors scanAnchorsFuel
  rw [h]

/-- Claim C1, corrected form: encoding a valid scheme with any credential
that contains no newline and does not begin with whitespace round-trips
through the decoder. -/
theorem C1_encode_decode_round_trip (s c : String) (hs : validateMethod s = none)
    (hnl : c.data.all (fun ch => ch != '\n') = true)
    (hhead : c.data.head?.all (fun ch => !isRegexSpace ch) = true) :
    decodeWire (encodeWire s c) = Except.ok (s, c) := by
  obtain ⟨hne, hlow, halnum⟩ := validateMethod_none s hs
  have hsp : s.data.all (fun ch => !isRegexSpace ch) = true := by
    rw [List.all_eq_true] at halnum ⊢
    intro x hx
    simp [alnum_not_space x (halnum x hx)]
  have hmf : matchFrom (encodeWire s c).data = some (s, c) := by
    rw [encodeWire_data s c hlow]
    exact matchFrom_encoded s c (data_ne_nil_of_ne_empty s hne) hsp hnl hhead
  unfold decodeWire
  rw [scanAnchors_of_matchFrom _ _ hmf]
  simp [hs]

/-- Claim C1 as stated is false: the scheme name `"a"` is valid, but the
credential `" b"` (leading space, an instance of a credential containing
whitespace) does not round-trip — the separator run swallows the leading
space, so decoding yields `("a", "b")`. -/
theorem C1_counterexample :
    validateMethod "a" = none ∧
      decodeWire (encodeWire "a" " b") = Except.ok ("a", "b") ∧
      Except.ok ("a", "b") ≠ (Except.ok ("a", " b") : Except GoError (String × String)) := by
  refine ⟨by decide, by decide, by decide⟩

/-- Witness: the corrected C1 applied at scheme `"bearer"` and credential
`"token stuff"` (internal whitespace preserved). -/
theorem C1_witness :
    validateMethod "bearer" = none ∧
      ("token stuff".data.all (fun ch => ch != '\n') = true) ∧
      ("token stuff".data.head?.all (fun ch => !isRegexSpace ch) = true) ∧
      decodeWire (encodeWire "bearer" "token stuff") = Except.ok ("bearer", "token stuff") :=
  ⟨by decide, by decide, by decide,
    C1_encode_decode_round_trip "bearer" "token stuff" (by decide) (by decide) (by decide)⟩

/-- Claim C4, corrected form: the decoder classifies a present header value
as `MalformedHeader` exactly when the multiline-anchored regexp (a match
may start at the beginning of the value or right after any newline) finds
no match; for the full parse stage the no-match case always yields the
malformed classification. -/
theorem C4_malformed_iff_no_multiline_match (v : String) (a : Authorization) (ctx : Context) :
    (scanAnchors v.data = none → parseHeaderValue a ctx v = GoAny.errVal malformedErr) ∧
      (decodeWire v = Except.error malformedErr ↔ scanAnchors v.data = none) := by
  constructor
  · intro h
    unfold parseHeaderValue decodeWire
    rw [h]
  · constructor
    · intro h
      cases hsc : scanAnchors v.data with
      | none => rfl
      | some r =>
        exfalso
        obtain ⟨scheme, cred⟩ := r
        unfold decodeWire at h
        rw [hsc] at h
        cases hv : validateMethod scheme with
        | some e =>
          simp only [hv] at h
          injection h with h2
          exact validateMethod_some_ne_malformed scheme e hv h2
        | none => simp [hv] at h
    · intro h
      unfold decodeWire
      rw [h]

/-- Claim C4 as stated is false: the value `"\na b"` does not match the
start-anchored pattern, yet the decoder does not classify it as
`MalformedHeader` (the `(?m)` flag lets the match start after the
newline). -/
theorem C4_counterexample :
    matchFrom "\na b".data = none ∧
      decodeWire "\na b" = Except.ok ("a", "b") ∧
      parseHeaderValue ⟨[]⟩ ctxEmpty "\na b" ≠ GoAny.errVal malformedErr := by
  refine ⟨by decide, by decide, by decide⟩

/-- Witness: the corrected C4 applied at the value `"nope"`, which has no
whitespace-separated second token. -/
theorem C4_witness :
    scanAnchors "nope".data = none ∧
      parseHeaderValue ⟨[]⟩ ctxEmpty "nope" = GoAny.errVal malformedErr ∧
      (decodeWire "nope" = Except.error malformedErr ↔ scanAnchors "nope".data = none) :=
  ⟨by decide, (C4_malformed_iff_no_multiline_match "nope" ⟨[]⟩ ctxEmpty).1 (by decide),
    (C4_malformed_iff_no_multiline_match "nope" ⟨[]⟩ ctxEmpty).2⟩

/-- Claim C2, corrected form: a handler can tell `Missing` apart from the
other three failure classifications (it alone carries `ErrMissing`), but
`MalformedHeader`, `UnsupportedScheme` and wrapped validator errors all
surface from `GetFromContext` carrying the single `ErrInvalid` kind. -/
theorem C2_only_missing_is_distinguishable (ctxM ctxF ctxU ctxV : Context) (t s : String)
    (con : GoAny) (ve : GoError)
    (hM : ctxM.authValue = some (.errVal ErrMissing))
    (hF : ctxF.authValue = some (.errVal malformedErr))
    (hU : ctxU.authValue = some (.errVal (unsupportedErr s)))
    (hV : ctxV.authValue = some (.errVal ve))
    (hve1 : ve.errorsIs ErrMissing = false)
    (hve2 : ve.errorsIs ErrInvalid = false) :
    returnedErr (GetFromContext ctxM (.ref t con)) = some ErrMissing ∧
      ErrMissing.errorsIs ErrMissing = true ∧
      ErrMissing.errorsIs ErrInvalid = false ∧
      returnedErr (GetFromContext ctxF (.ref t con)) = some malformedErr ∧
      malformedErr.errorsIs ErrInvalid = true ∧
      malformedErr.errorsIs ErrMissing = false ∧
      returnedErr (GetFromContext ctxU (.ref t con)) = some (unsupportedErr s) ∧
      (unsupportedErr s).errorsIs ErrInvalid = true ∧
      (unsupportedErr s).errorsIs ErrMissing = false ∧
      returnedErr (GetFromContext ctxV (.ref t con)) =
        some (.wrapf ErrInvalid (": " ++ ve.errMsg)) ∧
      (GoError.wrapf ErrInvalid (": " ++ ve.errMsg)).errorsIs ErrInvalid = true ∧
      (GoError.wrapf ErrInvalid (": " ++ ve.errMsg)).errorsIs ErrMissing = false := by
  have hUinv : (unsupportedErr s).errorsIs ErrInvalid = true := (wrapf_invalid_chain _).1
  have hUmis : (unsupportedErr s).errorsIs ErrMissing = false := (wrapf_invalid_chain _).2
  refine ⟨?_, by decide, by decide, ?_, by decide, by decide, ?_, hUinv, hUmis, ?_,
    (wrapf_invalid_chain _).1, (wrapf_invalid_chain _).2⟩
  · unfold GetFromContext contextValue
    rw [hM]
    simp [returnedErr, errorsIs_self]
  · unfold GetFromContext contextValue
    rw [hF]
    simp [returnedErr, malformedErr, (wrapf_invalid_chain _).1]
  · unfold GetFromContext contextValue
    rw [hU]
    simp [returnedErr, unsupportedErr, (wrapf_invalid_chain _).1]
  · unfold GetFromContext contextValue
    rw [hV]
    simp [returnedErr, hve1, hve2]

/-- Claim C2 as stated is false: the classifications `MalformedHeader`
(header `"coucou"`) and `UnsupportedScheme` (header `"ghost token"` with no
scheme registered) are produced as two errors whose `errors.Is` behaviour
against every exported sentinel of the package is identical, so a handler
cannot tell them apart. -/
theorem C2_counterexample :
    parseMeta ⟨[]⟩ { ctxEmpty with incomingMD := some [(MetadataName, ["coucou"])] } =
      GoAny.errVal malformedErr ∧
      parseMeta ⟨[]⟩ { ctxEmpty with incomingMD := some [(MetadataName, ["ghost token"])] } =
        GoAny.errVal (unsupportedErr "ghost") ∧
      returnedErr (GetFromContext { ctxEmpty with authValue := some (.errVal malformedErr) }
        (Dest.ref "string" (.typedVal "string" ""))) = some malformedErr ∧
      returnedErr (GetFromContext
        { ctxEmpty with authValue := some (.errVal (unsupportedErr "ghost")) }
        (Dest.ref "string" (.typedVal "string" ""))) = some (unsupportedErr "ghost") ∧
      malformedErr ≠ unsupportedErr "ghost" ∧
      malformedErr.errorsIs ErrInvalidOptionValue =
        (unsupportedErr "ghost").errorsIs ErrInvalidOptionValue ∧
      malformedErr.errorsIs ErrUnchecked = (unsupportedErr "ghost").errorsIs ErrUnchecked ∧
      malformedErr.errorsIs ErrMissing = (unsupportedErr "ghost").errorsIs ErrMissing ∧
      malformedErr.errorsIs ErrInvalid = (unsupportedErr "ghost").errorsIs ErrInvalid ∧
      malformedErr.errorsIs ErrType = (unsupportedErr "ghost").errorsIs ErrType ∧
      malformedErr.errorsIs ErrInvalidMethod =
        (unsupportedErr "ghost").errorsIs ErrInvalidMethod := by
  decide

/-- Witness: the corrected C2 applied at concrete contexts holding the four
stored failure outcomes (the validator error is `errors.New("boo")`). -/
theorem C2_witness :
    ({ ctxEmpty with authValue := some (.errVal ErrMissing) } : Context).authValue =
        some (.errVal ErrMissing) ∧
      (GoError.sentinel "boo").errorsIs ErrMissing = false ∧
      (GoError.sentinel "boo").errorsIs ErrInvalid = false ∧
      returnedErr (GetFromContext { ctxEmpty with authValue := some (.errVal ErrMissing) }
        (.ref "string" (.typedVal "string" ""))) = some ErrMissing ∧
      returnedErr (GetFromContext { ctxEmpty with authValue := some (.errVal malformedErr) }
        (.ref "string" (.typedVal "string" ""))) = some malformedErr ∧
      returnedErr (GetFromContext
        { ctxEmpty with authValue := some (.errVal (unsupportedErr "ghost")) }
        (.ref "string" (.typedVal "string" ""))) = some (unsupportedErr "ghost") ∧
      returnedErr (GetFromContext
        { ctxEmpty with authValue := some (.errVal (GoError.sentinel "boo")) }
        (.ref "string" (.typedVal "string" ""))) =
        some (.wrapf ErrInvalid (": " ++ (GoError.sentinel "boo").errMsg)) :=
  ⟨rfl, by decide, by decide,
    (C2_only_missing_is_distinguishable
      { ctxEmpty with authValue := some (.errVal ErrMissing) }
      { ctxEmpty with authValue := some (.errVal malformedErr) }
      { ctxEmpty with authValue := some (.errVal (unsupportedErr "ghost")) }
      { ctxEmpty with authValue := some (.errVal (GoError.sentinel "boo")) }
      "string" "ghost" (.typedVal "string" "") (GoError.sentinel "boo")
      rfl rfl rfl rfl (by decide) (by decide)).1,
    (C2_only_missing_is_distinguishable
      { ctxEmpty with authValue := some (.errVal ErrMissing) }
      { ctxEmpty with authValue := some (.errVal malformedErr) }
      { ctxEmpty with authValue := some (.errVal (unsupportedErr "ghost")) }
      { ctxEmpty with authValue := some (.errVal (GoError.sentinel "boo")) }
      "string" "ghost" (.typedVal "string" "") (GoError.sentinel "boo")
      rfl rfl rfl rfl (by decide) (by decide)).2.2.2.1,
    (C2_only_missing_is_distinguishable
      { ctxEmpty with authValue := some (.errVal ErrMissing) }
      { ctxEmpty with authValue := some (.errVal malformedErr) }
      { ctxEmpty with authValue := some (.errVal (unsupportedErr "ghost")) }
      { ctxEmpty with authValue := some (.errVal (GoError.sentinel "boo")) }
      "string" "ghost" (.typedVal "string" "") (GoError.sentinel "boo")
      rfl rfl rfl rfl (by decide) (by decide)).2.2.2.2.2.2.1,
    (C2_only_missing_is_distinguishable
      { ctxEmpty with authValue := some (.errVal ErrMissing) }
      { ctxEmpty with authValue := some (.errVal malformedErr) }
      { ctxEmpty with authValue := some (.errVal (unsupportedErr "ghost")) }
      { ctxEmpty with authValue := some (.errVal (GoError.sentinel "boo")) }
      "string" "ghost" (.typedVal "string" "") (GoError.sentinel "boo")
      rfl rfl rfl rfl (by decide) (by decide)).2.2.2.2.2.2.2.2.2.1⟩

/-- Claim C3, corrected form: the option produced by `WithMethodFunction`,
`AppendToOutgoingContext`, and the decode stage all reject an invalid
scheme name with the very same `ErrInvalidMethod`-carrying error; but the
rejection surfaced by `New` is rewrapped as `ErrInvalidOptionValue` with
`%s` formatting, so it no longer carries `ErrInvalidMethod`. -/
theorem C3_invalid_name_rejections (m cred v : String) (fn : CredentialValidator)
    (a : Authorization) (ctx : Context) (e : GoError)
    (h : validateMethod m = some e)
    (hv : scanAnchors v.data = some (m, cred)) :
    e.errorsIs ErrInvalidMethod = true ∧
      WithMethodFunction m (some fn) a = Except.error e ∧
      AppendToOutgoingContext ctx m cred = Except.error e ∧
      decodeWire v = Except.error e ∧
      exceptErrorIs (New [WithMethodFunction m (some fn)]) ErrInvalidMethod = false ∧
      exceptErrorIs (New [WithMethodFunction m (some fn)]) ErrInvalidOptionValue = true := by
  refine ⟨validateMethod_some_invalidMethod m e h, ?_, ?_, ?_, ?_, ?_⟩
  · unfold WithMethodFunction
    simp [h]
  · unfold AppendToOutgoingContext
    simp [h]
  · unfold decodeWire
    rw [hv]
    simp [h]
  · unfold New WithMethodFunction
    simp [h, exceptErrorIs, wrapf_invalidOption_not_invalidMethod]
  · unfold New WithMethodFunction
    simp [h, exceptErrorIs, GoError.errorsIs, errorsIs_self, ErrInvalidOptionValue]

/-- Claim C3 as stated is false: for the invalid scheme name `"BAD"`,
registration surfaced through `New` rejects with an error that does not
carry `ErrInvalidMethod` (it carries only `ErrInvalidOptionValue`), unlike
the other acceptance sites. -/
theorem C3_counterexample :
    (validateMethod "BAD").isSome = true ∧
      exceptErrorIs (New [WithMethodFunction "BAD" (some okValidator)]) ErrInvalidMethod =
        false ∧
      exceptErrorIs (New [WithMethodFunction "BAD" (some okValidator)]) ErrInvalidOptionValue =
        true := by
  decide

/-- Witness: the corrected C3 applied at the invalid name `"heLLo"` and the
wire value `"heLLo monde"`. -/
theorem C3_witness :
    validateMethod "heLLo" = some (.wrapf ErrInvalidMethod ": must be lowercase") ∧
      scanAnchors "heLLo monde".data = some ("heLLo", "monde") ∧
      ((GoError.wrapf ErrInvalidMethod ": must be lowercase").errorsIs ErrInvalidMethod = true ∧
        WithMethodFunction "heLLo" (some okValidator) ⟨[]⟩ =
          Except.error (.wrapf ErrInvalidMethod ": must be lowercase") ∧
        AppendToOutgoingContext ctxEmpty "heLLo" "monde" =
          Except.error (.wrapf ErrInvalidMethod ": must be lowercase") ∧
        decodeWire "heLLo monde" =
          Except.error (.wrapf ErrInvalidMethod ": must be lowercase") ∧
        exceptErrorIs (New [WithMethodFunction "heLLo" (some okValidator)]) ErrInvalidMethod =
          false ∧
        exceptErrorIs (New [WithMethodFunction "heLLo" (some okValidator)])
          ErrInvalidOptionValue = true) :=
  ⟨by decide, by decide,
    C3_invalid_name_rejections "heLLo" "monde" "heLLo monde" okValidator ⟨[]⟩ ctxEmpty
      (.wrapf ErrInvalidMethod ": must be lowercase") (by decide) (by decide)⟩

/-- Claim C5: both interceptors invoke the wrapped handler with the
`parseMeta` outcome attached to the derived context — whatever that outcome
is — and return the handler's result unchanged; neither ever rejects a call
itself. -/
theorem C5_interceptors_always_call_handler {Req Resp Srv : Type} (a : Authorization)
    (ctx : Context) (req : Req) (uh : Context → Req → Resp × Option GoError)
    (srv : Srv) (stream : ServerStream) (sh : Srv → ServerStream → Option GoError) :
    unaryInterceptor a ctx req uh = uh (withAuthValue ctx (parseMeta a ctx)) req ∧
      streamInterceptor a srv stream sh =
        sh srv { ctx := withAuthValue stream.ctx (parseMeta a stream.ctx) } :=
  ⟨rfl, rfl⟩

/-- Claim C6: an absent incoming metadata or an authorization key with zero
values yields the `Missing` outcome, and when values are present only the
first one is decoded and validated (the tail `rest` of duplicates does not
appear in the outcome). -/
theorem C6_missing_or_first_value (a : Authorization) (ctx : Context) (md md2 : MD)
    (v : String) (rest : List String)
    (h1 : ctx.incomingMD = some md)
    (h2 : mdGet md MetadataName = v :: rest)
    (h3 : mdGet md2 MetadataName = []) :
    parseMeta a ctx = parseHeaderValue a ctx v ∧
      parseMeta a { ctx with incomingMD := none } = GoAny.errVal ErrMissing ∧
      parseMeta a { ctx with incomingMD := some md2 } = GoAny.errVal ErrMissing := by
  refine ⟨?_, ?_, ?_⟩
  · unfold parseMeta
    simp [h1, h2]
  · simp [parseMeta]
  · simp [parseMeta, h3]

/-- Witness: C6 applied at a call carrying two values for the authorization
key — only the first (`"hello world"`) is decoded — and at an incoming
metadata set without the key. -/
theorem C6_witness :
    (({ ctxEmpty with
        incomingMD := some [(MetadataName, ["hello world", "dup two"])] } : Context).incomingMD =
      some [(MetadataName, ["hello world", "dup two"])]) ∧
      mdGet [(MetadataName, ["hello world", "dup two"])] MetadataName =
        "hello world" :: ["dup two"] ∧
      mdGet [("other", ["x"])] MetadataName = [] ∧
      (parseMeta ⟨[]⟩
          { ctxEmpty with incomingMD := some [(MetadataName, ["hello world", "dup two"])] } =
        parseHeaderValue ⟨[]⟩
          { ctxEmpty with incomingMD := some [(MetadataName, ["hello world", "dup two"])] }
          "hello world" ∧
        parseMeta ⟨[]⟩
          { { ctxEmpty with
              incomingMD := some [(MetadataName, ["hello world", "dup two"])] } with
            incomingMD := none } = GoAny.errVal ErrMissing ∧
        parseMeta ⟨[]⟩
          { { ctxEmpty with
              incomingMD := some [(MetadataName, ["hello world", "dup two"])] } with
            incomingMD := some [("other", ["x"])] } = GoAny.errVal ErrMissing) :=
  ⟨rfl, by decide, by decide,
    C6_missing_or_first_value ⟨[]⟩
      { ctxEmpty with incomingMD := some [(MetadataName, ["hello world", "dup two"])] }
      [(MetadataName, ["hello world", "dup two"])] [("other", ["x"])]
      "hello world" ["dup two"] rfl (by decide) (by decide)⟩

/-- Claim C7: with a stored success value of one runtime type and a pointer
destination of a different element type, `GetFromContext` returns a
`TypeMismatch` error naming both types and the destination slot keeps its
previous contents. -/
theorem C7_type_mismatch_leaves_dest_unchanged (ctx : Context) (ty pay elemTy : String)
    (con : GoAny)
    (hstore : ctx.authValue = some (.typedVal ty pay))
    (hty : elemTy ≠ ty) :
    GetFromContext ctx (.ref elemTy con) =
      .ret (some (.wrapf ErrType (": expecting a " ++ elemTy ++ " but got value is a " ++ ty)))
        (.ref elemTy con) ∧
      (GoError.wrapf ErrType
        (": expecting a " ++ elemTy ++ " but got value is a " ++ ty)).errorsIs ErrType =
        true := by
  constructor
  · unfold GetFromContext contextValue
    rw [hstore]
    simp [hty]
  · exact errorsIs_wrapf _ _ _ (errorsIs_self _)

/-- Witness: C7 applied at a stored `string` value and an `int` slot
holding `0`, which keeps holding `0`. -/
theorem C7_witness :
    ({ ctxEmpty with authValue := some (.typedVal "string" "ok") } : Context).authValue =
        some (.typedVal "string" "ok") ∧
      ("int" : String) ≠ "string" ∧
      (GetFromContext { ctxEmpty with authValue := some (.typedVal "string" "ok") }
          (.ref "int" (.typedVal "int" "0")) =
        .ret (some (.wrapf ErrType (": expecting a " ++ "int" ++ " but got value is a " ++
          "string"))) (.ref "int" (.typedVal "int" "0")) ∧
        (GoError.wrapf ErrType
          (": expecting a " ++ "int" ++ " but got value is a " ++ "string")).errorsIs ErrType =
          true) :=
  ⟨rfl, by decide,
    C7_type_mismatch_leaves_dest_unchanged
      { ctxEmpty with authValue := some (.typedVal "string" "ok") }
      "string" "ok" "int" (.typedVal "int" "0") rfl (by decide)⟩

/-- Claim C9: when the registered validator succeeds with a nil value, the
attached outcome is the untyped nil, and `GetFromContext` on the derived
context behaves exactly as on a context no interceptor ever touched — it
returns `ErrUnchecked` for every pointer destination. -/
theorem C9_nil_validator_value_reads_as_unchecked (a : Authorization) (ctx : Context)
    (md : MD) (v scheme cred : String) (rest : List String) (fn : CredentialValidator)
    (d : Dest)
    (h1 : ctx.incomingMD = some md)
    (h2 : mdGet md MetadataName = v :: rest)
    (h3 : scanAnchors v.data = some (scheme, cred))
    (h4 : validateMethod scheme = none)
    (h5 : mapLookup a.methods scheme = some (some fn))
    (h6 : fn ctx cred = (GoAny.nilAny, none))
    (hd : isPtrDest d = true) :
    parseMeta a ctx = GoAny.nilAny ∧
      GetFromContext (withAuthValue ctx (parseMeta a ctx)) d =
        GetFromContext { ctx with authValue := none } d ∧
      GetFromContext (withAuthValue ctx (parseMeta a ctx)) d =
        GetResult.ret (some ErrUnchecked) d := by
  have hp : parseMeta a ctx = GoAny.nilAny := by
    unfold parseMeta parseHeaderValue decodeWire
    simp [h1, h2, h3, h4, h5, h6]
  refine ⟨hp, ?_, ?_⟩
  · rw [hp]
    cases d <;> simp [GetFromContext, contextValue, withAuthValue]
  · rw [hp]
    cases d with
    | nonPtr t => simp [isPtrDest] at hd
    | nilPtr t => simp [GetFromContext, contextValue, withAuthValue]
    | ref t con => simp [GetFromContext, contextValue, withAuthValue]

/-- Witness: C9 applied at a registered scheme `"basic"` whose validator
returns `(nil, nil)` on the header `"basic tok"`, read back through a
string-pointer destination. -/
theorem C9_witness :
    (({ ctxEmpty with incomingMD := some [(MetadataName, ["basic tok"])] } : Context).incomingMD =
      some [(MetadataName, ["basic tok"])]) ∧
      mdGet [(MetadataName, ["basic tok"])] MetadataName = "basic tok" :: [] ∧
      scanAnchors "basic tok".data = some ("basic", "tok") ∧
      validateMethod "basic" = none ∧
      mapLookup [("basic", some nilValidator)] "basic" = some (some nilValidator) ∧
      nilValidator { ctxEmpty with incomingMD := some [(MetadataName, ["basic tok"])] } "tok" =
        (GoAny.nilAny, none) ∧
      isPtrDest (.ref "string" (.typedVal "string" "")) = true ∧
      (parseMeta ⟨[("basic", some nilValidator)]⟩
          { ctxEmpty with incomingMD := some [(MetadataName, ["basic tok"])] } =
        GoAny.nilAny ∧
        GetFromContext
          (withAuthValue { ctxEmpty with incomingMD := some [(MetadataName, ["basic tok"])] }
            (parseMeta ⟨[("basic", some nilValidator)]⟩
              { ctxEmpty with incomingMD := some [(MetadataName, ["basic tok"])] }))
          (.ref "string" (.typedVal "string" "")) =
          GetFromContext
            { { ctxEmpty with incomingMD := some [(MetadataName, ["basic tok"])] } with
              authValue := none }
            (.ref "string" (.typedVal "string" "")) ∧
        GetFromContext
          (withAuthValue { ctxEmpty with incomingMD := some [(MetadataName, ["basic tok"])] }
            (parseMeta ⟨[("basic", some nilValidator)]⟩
              { ctxEmpty with incomingMD := some [(MetadataName, ["basic tok"])] }))
          (.ref "string" (.typedVal "string" "")) =
          GetResult.ret (some ErrUnchecked) (.ref "string" (.typedVal "string" ""))) :=
  ⟨rfl, by decide, by decide, by decide, rfl, rfl, by decide,
    C9_nil_validator_value_reads_as_unchecked ⟨[("basic", some nilValidator)]⟩
      { ctxEmpty with incomingMD := some [(MetadataName, ["basic tok"])] }
      [(MetadataName, ["basic tok"])] "basic tok" "basic" "tok" [] nilValidator
      (.ref "string" (.typedVal "string" ""))
      rfl (by decide) (by decide) (by decide) rfl rfl (by decide)⟩

/-- Claim C10: with a stored success value, `GetFromContext` on a typed nil
pointer destination panics inside the reflect-based type check instead of
returning any error. -/
theorem C10_typed_nil_pointer_panics (ctx : Context) (ty pay elemTy : String)
    (h : ctx.authValue = some (GoAny.typedVal ty pay)) :
    GetFromContext ctx (Dest.nilPtr elemTy) =
      GetResult.panicked "reflect: call of reflect.Value.Type on zero Value" := by
  unfold GetFromContext contextValue
  rw [h]

/-- Witness: C10 applied at a stored `string` value and a `(*string)(nil)`
destination. -/
theorem C10_witness :
    ({ ctxEmpty with authValue := some (GoAny.typedVal "string" "ok") } : Context).authValue =
        some (GoAny.typedVal "string" "ok") ∧
      GetFromContext { ctxEmpty with authValue := some (GoAny.typedVal "string" "ok") }
        (Dest.nilPtr "string") =
        GetResult.panicked "reflect: call of reflect.Value.Type on zero Value" :=
  ⟨rfl,
    C10_typed_nil_pointer_panics
      { ctxEmpty with authValue := some (GoAny.typedVal "string" "ok") }
      "string" "ok" "string" rfl⟩

/-- Claim C8: for a valid scheme name, `AppendToOutgoingContext` leaves
exactly one value under the authorization key of the outgoing metadata —
the newly encoded credential — and a second call (same or different
scheme) replaces that single value instead of appending. -/
theorem C8_exactly_one_replaced_value (ctx : Context) (m c m2 c2 : String)
    (h : validateMethod m = none) (h2 : validateMethod m2 = none) :
    outVals (AppendToOutgoingContext ctx m c) = [encodeWire m c] ∧
      outVals (AppendToOutgoingContext
        (okCtx (AppendToOutgoingContext ctx m c) ctx) m2 c2) = [encodeWire m2 c2] := by
  constructor
  · unfold AppendToOutgoingContext outVals
    simp [h, mdGet_mdSet]
  · unfold AppendToOutgoingContext okCtx outVals
    simp [h, h2, mdGet_mdSet]

/-- Witness: C8 applied twice from a context whose outgoing metadata
already carries two stale values under the authorization key. -/
theorem C8_witness :
    validateMethod "basic" = none ∧
      validateMethod "bearer" = none ∧
      (outVals (AppendToOutgoingContext
          { ctxEmpty with outgoingMD := some [(MetadataName, ["old1", "old2"])] }
          "basic" "tok") = [encodeWire "basic" "tok"] ∧
        outVals (AppendToOutgoingContext
          (okCtx (AppendToOutgoingContext
            { ctxEmpty with outgoingMD := some [(MetadataName, ["old1", "old2"])] }
            "basic" "tok")
            { ctxEmpty with outgoingMD := some [(MetadataName, ["old1", "old2"])] })
          "bearer" "tok2 x") = [encodeWire "bearer" "tok2 x"]) :=
  ⟨by decide, by decide,
    C8_exactly_one_replaced_value
      { ctxEmpty with outgoingMD := some [(MetadataName, ["old1", "old2"])] }
      "basic" "tok" "bearer" "tok2 x" (by decide) (by decide)⟩
